import Mathlib

/-!
Verification of the pixi environment-manager core
(`src/client/pythonEnvironments/common/environmentManagers/pixi.ts` and the
pixi locator), shallowly embedded in Lean 4.

External collaborators (process execution, configuration store, filesystem
existence checks, the interpreter-resolution helper) are modelled as explicit
function parameters bundled into "world" structures; a JavaScript exception
is modelled as `Except.error`, a JS `undefined` result as `Option.none`.
-/

namespace PixiCore

/-- The OS family, as returned by `getOSType()`. -/
inductive OSType where
  | Windows
  | OSX
  | Linux
  | Unknown
deriving DecidableEq, Repr

/-- Node's `path.posix.dirname` scan: walking indices `i = len-1, len-2, …, 1`
over the reversed character list, with `matched` tracking whether we are still
inside the run of trailing separators, return the index of the separator that
ends the parent portion (Node's `end`), or `none` if the loop finds none. -/
def dirnameEnd : List Char → Bool → Nat → Option Nat
  | [], _, _ => none
  | c :: rest, matched, i =>
    if i = 0 then none
    else if c = '/' then
      if !matched then some i else dirnameEnd rest matched (i - 1)
    else dirnameEnd rest false (i - 1)

/-- Node's `path.posix.dirname`. -/
def dirname (p : String) : String :=
  let cs := p.data
  match cs with
  | [] => "."
  | c0 :: _ =>
    let hasRoot := c0 = '/'
    match dirnameEnd cs.reverse true (cs.length - 1) with
    | none => if hasRoot then "/" else "."
    | some e => if hasRoot && e = 1 then "//" else String.mk (cs.take e)

/-- Node's `path.posix.join` restricted to two segments (enough for the fixed
`~/.pixi/bin/pixi` install location built in `Pixi.locate`). -/
def join2 (a b : String) : String :=
  if a = "" then b else if a.endsWith "/" then a ++ b else a ++ "/" ++ b

/-- `getCondaEnvironmentFromInterpreterPath` from pixi.ts: the environment
directory derived from an interpreter path, with the OS family made an
explicit argument in place of the ambient `getOSType()`. -/
def getCondaEnvironmentFromInterpreterPath (os : OSType) (interpreterPath : String) : String :=
  let interpreterDir := dirname interpreterPath
  if os = OSType.Windows then interpreterDir
  else dirname interpreterDir

/-- `getPixiProjectFolderFromInterpreter` from pixi.ts: the project directory
derived from an interpreter path; pure, no existence checking. -/
def getPixiProjectFolderFromInterpreter (os : OSType) (interpreterPath : String) : String :=
  let envDir := getCondaEnvironmentFromInterpreterPath os interpreterPath
  let envsDir := dirname envDir
  let pixiDir := dirname envsDir
  let projectDir := dirname pixiDir
  projectDir

/-- A JavaScript value as produced by `JSON.parse`, plus `undefined` for the JS
`undefined` that property access on a non-object or a missing key yields
(the parser itself never produces `undefined`). Numbers keep their raw lexeme:
no claim inspects a numeric value. -/
inductive JsonValue where
  | null
  | bool (b : Bool)
  | num (lexeme : String)
  | str (s : String)
  | arr (elems : List JsonValue)
  | obj (fields : List (String × JsonValue))
  | undefined

/-- Opening brace character. -/
def lbrace : Char := Char.ofNat 123

/-- Closing brace character. -/
def rbrace : Char := Char.ofNat 125

/-- JSON insignificant whitespace. -/
def isJsonWs (c : Char) : Bool :=
  c = ' ' || c = '\t' || c = '\n' || c = '\r'

/-- Drop leading JSON whitespace. -/
def skipWs : List Char → List Char
  | [] => []
  | c :: rest => if isJsonWs c then skipWs rest else c :: rest

/-- Value of a hexadecimal digit. -/
def hexVal (c : Char) : Option Nat :=
  if '0' ≤ c ∧ c ≤ '9' then some (c.toNat - '0'.toNat)
  else if 'a' ≤ c ∧ c ≤ 'f' then some (c.toNat - 'a'.toNat + 10)
  else if 'A' ≤ c ∧ c ≤ 'F' then some (c.toNat - 'A'.toNat + 10)
  else none

/-- Parse the body of a JSON string literal (the opening quote already
consumed), returning the decoded string and the remaining input. Strict JSON:
unescaped control characters and unknown escapes are rejected. -/
def parseStringBody (acc : List Char) : List Char → Option (String × List Char)
  | [] => none
  | '\\' :: esc =>
    match esc with
    | '"' :: rest => parseStringBody ('"' :: acc) rest
    | '\\' :: rest => parseStringBody ('\\' :: acc) rest
    | '/' :: rest => parseStringBody ('/' :: acc) rest
    | 'b' :: rest => parseStringBody (Char.ofNat 8 :: acc) rest
    | 'f' :: rest => parseStringBody (Char.ofNat 12 :: acc) rest
    | 'n' :: rest => parseStringBody ('\n' :: acc) rest
    | 'r' :: rest => parseStringBody ('\r' :: acc) rest
    | 't' :: rest => parseStringBody ('\t' :: acc) rest
    | 'u' :: h1 :: h2 :: h3 :: h4 :: rest =>
      match hexVal h1, hexVal h2, hexVal h3, hexVal h4 with
      | some a, some b, some c, some d =>
        parseStringBody (Char.ofNat (((a * 16 + b) * 16 + c) * 16 + d) :: acc) rest
      | _, _, _, _ => none
    | _ => none
  | c :: rest =>
    if c = '"' then some (String.mk acc.reverse, rest)
    else if c.toNat < 32 then none
    else parseStringBody (c :: acc) rest

/-- Take a maximal run of decimal digits. -/
def takeDigits : List Char → List Char × List Char
  | [] => ([], [])
  | c :: rest =>
    if '0' ≤ c ∧ c ≤ '9' then
      let (ds, r) := takeDigits rest
      (c :: ds, r)
    else ([], c :: rest)

/-- Parse a JSON number lexeme (strict JSON grammar: optional minus, integer
part without superfluous leading zero, optional fraction, optional exponent),
returning the raw lexeme and the remaining input. -/
def parseNumLexeme (cs : List Char) : Option (String × List Char) :=
  let (signPart, afterSign) :=
    match cs with
    | '-' :: rest => (['-'], rest)
    | _ => (([] : List Char), cs)
  match afterSign with
  | [] => none
  | c :: _ =>
    if ¬('0' ≤ c ∧ c ≤ '9') then none
    else
      let (intDigits, afterInt) := takeDigits afterSign
      if intDigits.length > 1 ∧ intDigits.headD '0' = '0' then none
      else
        let (fracPart, afterFrac) :=
          match afterInt with
          | '.' :: rest =>
            let (fds, r) := takeDigits rest
            if fds = [] then (none, afterInt) else (some ('.' :: fds), r)
          | _ => (none, afterInt)
        match fracPart, afterFrac with
        | none, '.' :: _ => none
        | _, _ =>
          let (expPart, afterExp) :=
            match afterFrac with
            | e :: rest =>
              if e = 'e' ∨ e = 'E' then
                let (sgn, rest2) :=
                  match rest with
                  | '+' :: r => (['+'], r)
                  | '-' :: r => (['-'], r)
                  | _ => (([] : List Char), rest)
                let (eds, r) := takeDigits rest2
                if eds = [] then (none, afterFrac) else (some (e :: (sgn ++ eds)), r)
              else (none, afterFrac)
            | _ => (none, afterFrac)
          match expPart, afterFrac with
          | none, e :: _ =>
            if e = 'e' ∨ e = 'E' then none
            else some (String.mk (signPart ++ intDigits ++ (fracPart.getD []).append []), afterFrac)
          | none, _ => some (String.mk (signPart ++ intDigits ++ fracPart.getD []), afterFrac)
          | some ep, _ => some (String.mk (signPart ++ intDigits ++ fracPart.getD [] ++ ep), afterExp)

mutual

/-- Parse one JSON value (leading whitespace allowed), fuel-bounded. -/
def parseVal : Nat → List Char → Option (JsonValue × List Char)
  | 0, _ => none
  | fuel + 1, cs =>
    match skipWs cs with
    | 'n' :: 'u' :: 'l' :: 'l' :: rest => some (.null, rest)
    | 't' :: 'r' :: 'u' :: 'e' :: rest => some (.bool true, rest)
    | 'f' :: 'a' :: 'l' :: 's' :: 'e' :: rest => some (.bool false, rest)
    | '"' :: rest => (parseStringBody [] rest).map fun p => (.str p.1, p.2)
    | c :: rest =>
      if c = '[' then
        match skipWs rest with
        | c2 :: rest2 =>
          if c2 = ']' then some (.arr [], rest2)
          else (parseArrElems fuel [] (c2 :: rest2)).map fun p => (.arr p.1, p.2)
        | [] => none
      else if c = lbrace then
        match skipWs rest with
        | c2 :: rest2 =>
          if c2 = rbrace then some (.obj [], rest2)
          else (parseObjFields fuel [] (c2 :: rest2)).map fun p => (.obj p.1, p.2)
        | [] => none
      else
        (parseNumLexeme (c :: rest)).map fun p => (.num p.1, p.2)
    | [] => none

/-- Parse the elements of a non-empty JSON array (after `[`), fuel-bounded. -/
def parseArrElems : Nat → List JsonValue → List Char → Option (List JsonValue × List Char)
  | 0, _, _ => none
  | fuel + 1, acc, cs =>
    match parseVal fuel cs with
    | none => none
    | some (v, rest) =>
      match skipWs rest with
      | ',' :: rest2 => parseArrElems fuel (v :: acc) rest2
      | c :: rest2 =>
        if c = ']' then some ((v :: acc).reverse, rest2) else none
      | [] => none

/-- Parse the fields of a non-empty JSON object (after the opening brace),
fuel-bounded. -/
def parseObjFields : Nat → List (String × JsonValue) → List Char → Option (List (String × JsonValue) × List Char)
  | 0, _, _ => none
  | fuel + 1, acc, cs =>
    match skipWs cs with
    | '"' :: rest =>
      match parseStringBody [] rest with
      | none => none
      | some (k, rest2) =>
        match skipWs rest2 with
        | ':' :: rest3 =>
          match parseVal fuel rest3 with
          | none => none
          | some (v, rest4) =>
            match skipWs rest4 with
            | ',' :: rest5 => parseObjFields fuel ((k, v) :: acc) rest5
            | c :: rest5 =>
              if c = rbrace then some (((k, v) :: acc).reverse, rest5) else none
            | [] => none
        | _ => none
    | _ => none

end

/-- `JSON.parse`: parse a complete JSON document, requiring only whitespace
to remain afterwards; `none` models the thrown `SyntaxError`. -/
def parseJson (s : String) : Option JsonValue :=
  match parseVal (s.length + 1) s.data with
  | none => none
  | some (v, rest) =>
    match skipWs rest with
    | [] => some v
    | _ :: _ => none

/-- The part of an `ExecutionResult` that pixi.ts inspects. -/
structure ExecOutput where
  stdout : String

/-- The outcome of `exec(command, ['info', '--json'], ... cwd ...)` as a
function of the command and the working directory: `none` models a rejected
promise (spawn failure, unexpected exit status), which `.catch(traceError)`
turns into `undefined`. -/
def ExecFn : Type := String → String → Option ExecOutput

/-- JS property lookup among an object's fields: `JSON.parse` keeps the last
occurrence of a duplicated key, so look the key up from the right. -/
def jsLookupField (fields : List (String × JsonValue)) (k : String) : Option JsonValue :=
  fields.reverse.lookup k

/-- JS property access `v.k`: a `TypeError` (modelled as `Except.error`) on
`null`/`undefined`; `undefined` for a missing key or for access on a value
with no such property (primitive or array). -/
def jsField : JsonValue → String → Except Unit JsonValue
  | .null, _ => .error ()
  | .undefined, _ => .error ()
  | .obj fields, k =>
    match jsLookupField fields k with
    | some v => .ok v
    | none => .ok .undefined
  | _, _ => .ok .undefined

/-- The expression `pixiInfo?.environments_info.map((env) => env.prefix)`
from `Pixi.getEnvListCached`, applied to the (already cast, unvalidated)
result of `JSON.parse`: optional chaining short-circuits on `null`; calling
`.map` on anything but an array throws a `TypeError`; each element's
property access follows `jsField`. -/
def envListOfInfo (v : JsonValue) : Except Unit (Option (List JsonValue)) :=
  match v with
  | .null => .ok none
  | _ =>
    match jsField v "environments_info" with
    | .error e => .error e
    | .ok (.arr elems) =>
      match elems.mapM (fun e => jsField e "prefix") with
      | .error e => .error e
      | .ok prefixes => .ok (some prefixes)
    | .ok _ => .error ()

/-- A `Pixi` handle: one located tool executable bound to one working
directory (the constructor's `command` and `cwd`). -/
structure Pixi where
  command : String
  cwd : String

/-- `Pixi.getPixiInfo`: run `exec(this.command, ['info', '--json'])` with
`this.cwd` (the `_cwd` argument is only the cache key and is unused), return
`undefined` when exec rejected, otherwise `JSON.parse` the stdout — a parse
failure is an uncaught throw (`Except.error`), not `undefined`. The `@cache`
TTL decorator only memoizes and is outside the embedding. -/
def Pixi.getPixiInfo (self : Pixi) (execF : ExecFn) (cwdArg : String) : Except Unit (Option JsonValue) :=
  let _ := cwdArg
  match execF self.command self.cwd with
  | none => .ok none
  | some infoOutput =>
    match parseJson infoOutput.stdout with
    | none => .error ()
    | some pixiInfo => .ok (some pixiInfo)

/-- `Pixi.getEnvListCached`: `getPixiInfo` then
`pixiInfo?.environments_info.map((env) => env.prefix)`. -/
def Pixi.getEnvListCached (self : Pixi) (execF : ExecFn) (cwdArg : String) : Except Unit (Option (List JsonValue)) :=
  match self.getPixiInfo execF cwdArg with
  | .error e => .error e
  | .ok none => .ok none
  | .ok (some pixiInfo) => envListOfInfo pixiInfo

/-- `Pixi.getEnvList`: `getEnvListCached` keyed on the handle's own cwd. -/
def Pixi.getEnvList (self : Pixi) (execF : ExecFn) : Except Unit (Option (List JsonValue)) :=
  self.getEnvListCached execF self.cwd

/-- Modelled from the spec: `OUTPUT_MARKER_SCRIPT`, the fixed bootstrap
script path imported from `common/process/internal/scripts`, which is not
among the given sources; the claims only use that it is a fixed string. -/
def OUTPUT_MARKER_SCRIPT : String := "/ext/pythonFiles/get_output_via_markers.py"

/-- `isNonDefaultPixiEnvironmentName` from pixi.ts. -/
def isNonDefaultPixiEnvironmentName (envName : Option String) : Bool :=
  envName != none && envName != some "default"

/-- `Pixi.getRunPythonArgs` from pixi.ts (the TS type guard on
`isNonDefaultPixiEnvironmentName` makes `envName` a `string` in the branch,
hence the `getD`). -/
def Pixi.getRunPythonArgs (self : Pixi) (manifestPath : String) (envName : Option String)
    (isolatedFlag : Bool := false) : List String :=
  let python := [self.command, "run", "--manifest-path", manifestPath]
  let python :=
    if isNonDefaultPixiEnvironmentName envName then
      python ++ ["--environment", envName.getD ""]
    else python
  let python := python ++ ["python"]
  let python := if isolatedFlag then python ++ ["-I"] else python
  python ++ [OUTPUT_MARKER_SCRIPT]

/-- The external collaborators consulted by `Pixi.locate`:
`getPythonSetting('pixiToolPath')` (outer `none` models the call throwing,
which the `try`/`catch` turns into "no override"; `some none` models
`undefined`); `getUserHomeDir()`; `pathExistsSync`; and process execution. -/
structure LocateWorld where
  pixiToolPathSetting : Option (Option String)
  userHomeDir : Option String
  pathExistsSyncF : String → Bool
  execF : ExecFn

/-- The candidate produced by the settings-override branch of
`getCandidates()`: yielded only when the setting read did not throw, the
value is truthy (non-empty), and it is not the bare `'pixi'`. -/
def overrideCandidates (w : LocateWorld) : List String :=
  match w.pixiToolPathSetting with
  | some (some s) => if s ≠ "" ∧ s ≠ "pixi" then [s] else []
  | _ => []

/-- The candidate produced by the default-install-location branch of
`getCandidates()`: `join(home, '.pixi', 'bin', 'pixi')`, yielded only when
the home directory is truthy and that path exists on disk. -/
def defaultInstallCandidates (w : LocateWorld) : List String :=
  match w.userHomeDir with
  | some home =>
    if home ≠ "" then
      let defaultpixiToolPath := join2 (join2 (join2 home ".pixi") "bin") "pixi"
      if w.pathExistsSyncF defaultpixiToolPath then [defaultpixiToolPath] else []
    else []
  | none => []

/-- The full candidate sequence of `getCandidates()`, in yield order. -/
def locateCandidates (w : LocateWorld) : List String :=
  overrideCandidates w ++ ["pixi"] ++ defaultInstallCandidates w

/-- The probing loop of `Pixi.locate` over a candidate list: construct a
handle for the candidate and this cwd, call `getEnvList()`, and stop at the
first non-`undefined` result. Besides the outcome it returns the list of
candidates actually probed (each probe is one process invocation). An
exception from a probe propagates out of the loop. -/
def probeLoop (w : LocateWorld) (cwd : String) : List String → Except Unit (Option Pixi) × List String
  | [] => (.ok none, [])
  | pixiToolPath :: rest =>
    let pixi : Pixi := ⟨pixiToolPath, cwd⟩
    match pixi.getEnvList w.execF with
    | .error e => (.error e, [pixiToolPath])
    | .ok (some _) => (.ok (some pixi), [pixiToolPath])
    | .ok none =>
      let next := probeLoop w cwd rest
      (next.1, pixiToolPath :: next.2)

/-- `Pixi.locate`, instrumented with the list of candidates probed. -/
def Pixi.locateP (w : LocateWorld) (cwd : String) : Except Unit (Option Pixi) × List String :=
  probeLoop w cwd (locateCandidates w)

/-- `Pixi.locate`: the first functioning candidate's handle, or `undefined`. -/
def Pixi.locate (w : LocateWorld) (cwd : String) : Except Unit (Option Pixi) :=
  (Pixi.locateP w cwd).1

/-- The process-wide `Pixi.pixiPromise` registry: a map from working
directory to the settled outcome of the `locate` promise stored for it. -/
abbrev PixiRegistry : Type := List (String × Except Unit (Option Pixi))

/-- `Pixi.getPixi`: re-locate when no entry is cached for `cwd` or when
`isTestExecution()`, storing the new promise; otherwise return the cached
one. The third component counts the process invocations (probes) performed
by this call. -/
def Pixi.getPixi (isTestExec : Bool) (w : LocateWorld) (st : PixiRegistry) (cwd : String) :
    Except Unit (Option Pixi) × PixiRegistry × Nat :=
  match st.lookup cwd, isTestExec with
  | some r, false => (r, st, 0)
  | _, _ =>
    let lp := Pixi.locateP w cwd
    (lp.1, (cwd, lp.1) :: st, lp.2.length)

/-- A discovery record as yielded by the pixi locator
(`BasicEnvInfo` with `kind: PythonEnvKind.Pixi`). -/
structure BasicEnvInfo where
  executablePath : String
  kind : String
  envPath : String

/-- The external collaborators of the enumerator: the environment-prefix
list the tool reported for the root (`pixi?.getEnvList()`, `none` when there
is no pixi or it answered `undefined`); the async `pathExists`; and
`getCondaInterpreterPath` (from the conda manager, not among the given
sources), whose `Except.error` models a rejected promise. -/
structure EnumWorld where
  envList : Option (List String)
  pathExistsF : String → Bool
  getCondaInterpreterPath : String → Except Unit (Option String)

/-- `getVirtualEnvDirs` from the pixi locator:
`(await pixi?.getEnvList()) ?? []`, filtered by `pathExists`. `asyncFilter`
(from `common/utils/arrayUtils`, not among the given sources) is modelled
from the spec: filesystem-existence filtering preserves relative order. -/
def getVirtualEnvDirs (w : EnumWorld) : List String :=
  (w.envList.getD []).filter w.pathExistsF

/-- One per-environment generator from `PixiLocator.doIterEnvs`: resolve the
interpreter via `getCondaInterpreterPath(envDir)` and yield one record when
one is found. The rejection case is modelled from the spec: `chain` (from
`common/utils/async`, not among the given sources) catches a failing
generator, logs it, and skips just that environment. -/
def envRecords (w : EnumWorld) (envDir : String) : List BasicEnvInfo :=
  match w.getCondaInterpreterPath envDir with
  | .ok (some filename) => [⟨filename, "pixi", envDir⟩]
  | .ok none => []
  | .error _ => []

/-- `PixiLocator.doIterEnvs`: the records yielded by one enumeration call,
in order. `chain`/`iterable` (not among the given sources) are modelled from
the spec: records are yielded in the order their prefixes appear in the
tool's reported environment list. -/
def PixiLocator.doIterEnvs (w : EnumWorld) : List BasicEnvInfo :=
  (getVirtualEnvDirs w).flatMap (envRecords w)

/-- The sample `pixi info --json` document from the spec's round-trip
property. -/
def pixiInfoSampleDoc : String :=
  "\x7b\"version\":\"1\",\"platform\":\"linux\",\"virtual_packages\":[],\"cache_dir\":\"/c\",\"auth_dir\":\"/a\",\"environments_info\":[\x7b\"name\":\"default\",\"features\":[],\"solve_group\":\"g\",\"environment_size\":0,\"dependencies\":[],\"tasks\":[],\"channels\":[],\"prefix\":\"/proj/.pixi/envs/default\"\x7d]\x7d"

/-- A world where a configured override path is the only candidate whose
probe answers with the sample document. -/
def locateSampleWorld : LocateWorld where
  pixiToolPathSetting := some (some "/custom/pixi")
  userHomeDir := some "/home/user"
  pathExistsSyncF := fun _ => true
  execF := fun cmd _ => if cmd = "/custom/pixi" then some ⟨pixiInfoSampleDoc⟩ else none

/-- A world where every spawn attempt fails, so no candidate functions. -/
def noneSampleWorld : LocateWorld where
  pixiToolPathSetting := some none
  userHomeDir := some "/home/user"
  pathExistsSyncF := fun _ => true
  execF := fun _ _ => none

/-- An enumeration world with three reported prefixes of which the middle
one no longer exists on disk. -/
def enumSampleWorld : EnumWorld where
  envList := some ["/proj/.pixi/envs/default", "/proj/.pixi/envs/gone", "/proj/.pixi/envs/py311"]
  pathExistsF := fun d => d != "/proj/.pixi/envs/gone"
  getCondaInterpreterPath := fun d => .ok (some (d ++ "/bin/python"))

/-- An enumeration world where resolving the middle environment's
interpreter fails (its promise rejects). -/
def enumFailSampleWorld : EnumWorld where
  envList := some ["/proj/.pixi/envs/default", "/proj/.pixi/envs/bad", "/proj/.pixi/envs/py311"]
  pathExistsF := fun _ => true
  getCondaInterpreterPath := fun d =>
    if d = "/proj/.pixi/envs/bad" then .error () else .ok (some (d ++ "/bin/python"))

set_option maxRecDepth 20000

/-- C6: for every interpreter path, the environment-directory derivation is
the immediate parent (`path.dirname`) on the Windows OS family and the
grandparent on every other OS family. -/
theorem getCondaEnvironment_parent_or_grandparent (os : OSType) (p : String) :
    getCondaEnvironmentFromInterpreterPath os p
      = if os = OSType.Windows then dirname p else dirname (dirname p) := rfl

/-- C7: the project-directory derivation is a total pure function of the
path and OS family, always returning exactly three `dirname` levels above
the derived environment directory, for any path, existing or not. -/
theorem getPixiProjectFolder_three_levels_up (os : OSType) (p : String) :
    getPixiProjectFolderFromInterpreter os p
      = dirname (dirname (dirname (getCondaEnvironmentFromInterpreterPath os p))) := rfl

/-- C2 counterexample: with the isolation flag requested the produced list
ends in `['-I', bootstrap-script]`, so the interpreter binary name and the
bootstrap script path are not the two items appended last, contradicting
the claim at `(manifest, no environment, isolated = true)`. -/
theorem getRunPythonArgs_isolated_counterexample :
    (Pixi.mk "pixi" "/proj").getRunPythonArgs "/proj/pixi.toml" none true
      = ["pixi", "run", "--manifest-path", "/proj/pixi.toml", "python", "-I", OUTPUT_MARKER_SCRIPT]
    ∧ ["python", OUTPUT_MARKER_SCRIPT].isSuffixOf
        ((Pixi.mk "pixi" "/proj").getRunPythonArgs "/proj/pixi.toml" none true) = false :=
  ⟨rfl, rfl⟩

/-- C2 (amended): the base always holds the manifest-path flag;
`--environment n` is present exactly when `n` is present and is not
`"default"`; then the interpreter binary name is appended, then the
isolation flag exactly when requested, and the bootstrap script path comes
last. -/
theorem getRunPythonArgs_spec (cmd cwd m : String) (n : Option String) (b : Bool) :
    (Pixi.mk cmd cwd).getRunPythonArgs m n b
      = [cmd, "run", "--manifest-path", m]
          ++ (match n with
              | some s => if s = "default" then [] else ["--environment", s]
              | none => [])
          ++ ["python"]
          ++ (if b then ["-I"] else [])
          ++ [OUTPUT_MARKER_SCRIPT] := by
  cases n with
  | none => cases b <;> simp [Pixi.getRunPythonArgs, isNonDefaultPixiEnvironmentName]
  | some s =>
    by_cases hs : s = "default" <;> cases b <;>
      simp [Pixi.getRunPythonArgs, isNonDefaultPixiEnvironmentName, hs]

/-- C1: stdout that is not valid JSON makes `getPixiInfo` throw
(`JSON.parse` sits outside the `.catch`); stdout that is valid JSON but
misses `environments_info` is returned by `getPixiInfo` as a present,
non-conforming value and makes `getEnvListCached` throw (`.map` of
`undefined`); only a spawn failure is collapsed to `undefined`. -/
theorem pixi_accessors_throw_on_bad_stdout :
    (Pixi.mk "pixi" "/proj").getPixiInfo (fun _ _ => some ⟨"this is not JSON"⟩) "/proj"
        = .error ()
    ∧ (Pixi.mk "pixi" "/proj").getEnvListCached (fun _ _ => some ⟨"\x7b\x7d"⟩) "/proj"
        = .error ()
    ∧ (Pixi.mk "pixi" "/proj").getPixiInfo (fun _ _ => some ⟨"\x7b\x7d"⟩) "/proj"
        = .ok (some (.obj []))
    ∧ (Pixi.mk "pixi" "/proj").getEnvListCached (fun _ _ => none) "/proj" = .ok none :=
  ⟨rfl, rfl, rfl, rfl⟩

/-- C9: parsing the spec's literal sample document through the info accessor
and extracting the environment prefixes yields exactly the one-element list
with the sample prefix. -/
theorem getEnvList_roundtrip_sample :
    (Pixi.mk "pixi" "/proj").getEnvListCached (fun _ _ => some ⟨pixiInfoSampleDoc⟩) "/proj"
      = .ok (some [JsonValue.str "/proj/.pixi/envs/default"]) := rfl

/-- C10: `getPixiInfo` invokes the external tool with the handle's bound
working directory, never its `_cwd` argument: the result depends only on the
exec behavior at `(command, bound cwd)`, for any value of the argument. -/
theorem getPixiInfo_ignores_cwd_arg (self : Pixi) (e1 e2 : ExecFn) (c1 c2 : String)
    (h : e1 self.command self.cwd = e2 self.command self.cwd) :
    self.getPixiInfo e1 c1 = self.getPixiInfo e2 c2 := by
  unfold Pixi.getPixiInfo
  rw [h]

/-- C10 witness: a caller passing a different directory than the handle's
bound one (as `getPixiEnvironmentFromInterpreter` does) receives the info
for the bound directory. -/
theorem getPixiInfo_ignores_cwd_arg_witness :
    (Pixi.mk "pixi" "/proj").getPixiInfo
        (fun _ cwd => if cwd = "/proj" then some ⟨pixiInfoSampleDoc⟩ else none) "/other"
      = (Pixi.mk "pixi" "/proj").getPixiInfo (fun _ _ => some ⟨pixiInfoSampleDoc⟩) "/proj" :=
  getPixiInfo_ignores_cwd_arg ⟨"pixi", "/proj"⟩ _ _ "/other" "/proj" rfl

/-- Filtering before a `flatMap` equals a `flatMap` whose rejected branches
yield nothing. -/
theorem flatMap_filter_eq {α β : Type} (P : α → Bool) (f : α → List β) (l : List α) :
    (l.filter P).flatMap f = l.flatMap (fun a => if P a then f a else []) := by
  induction l with
  | nil => rfl
  | cons a l ih => cases h : P a <;> simp [List.filter_cons, h, ih]

/-- A `flatMap` each of whose pieces is a sublist of the corresponding
singleton is a sublist of the original list. -/
theorem flatMap_sublist_self {α : Type} (g : α → List α) (l : List α)
    (h : ∀ a ∈ l, (g a).Sublist [a]) : (l.flatMap g).Sublist l := by
  induction l with
  | nil => simp
  | cons a l ih =>
    simp only [List.flatMap_cons]
    exact (h a (by simp)).append (ih fun x hx => h x (by simp [hx]))

/-- Soundness of the probing loop: a returned handle is bound to the probed
working directory and to the first candidate whose probe answered
non-absent; every earlier candidate was probed and answered absent, and no
later candidate was probed. -/
theorem probeLoop_sound (w : LocateWorld) (cwd : String) (cs : List String)
    (h : Pixi) (probed : List String)
    (heq : probeLoop w cwd cs = (.ok (some h), probed)) :
    h.cwd = cwd
    ∧ ∃ pre suf, cs = pre ++ h.command :: suf
        ∧ probed = pre ++ [h.command]
        ∧ (∀ c ∈ pre, (Pixi.mk c cwd).getEnvList w.execF = .ok none)
        ∧ ∃ l, (Pixi.mk h.command cwd).getEnvList w.execF = .ok (some l) := by
  induction cs generalizing probed with
  | nil => simp [probeLoop] at heq
  | cons c rest ih =>
    simp only [probeLoop] at heq
    cases hp : (Pixi.mk c cwd).getEnvList w.execF with
    | error e => rw [hp] at heq; simp at heq
    | ok o =>
      cases o with
      | some l =>
        rw [hp] at heq
        simp only [Prod.mk.injEq] at heq
        obtain ⟨h1, h2⟩ := heq
        obtain rfl : h = ⟨c, cwd⟩ := by
          cases h1; rfl
        exact ⟨rfl, [], rest, rfl, h2.symm, by simp, l, hp⟩
      | none =>
        rw [hp] at heq
        cases hnext : probeLoop w cwd rest with
        | mk r t =>
          rw [hnext] at heq
          simp only [Prod.mk.injEq] at heq
          obtain ⟨h1, h2⟩ := heq
          obtain ⟨hcwd, pre, suf, hcs, hpr, hpre, hfun⟩ := ih t (by rw [hnext, h1])
          refine ⟨hcwd, c :: pre, suf, by simp [hcs], by simp [h2.symm, hpr], ?_, hfun⟩
          intro x hx
          rcases List.mem_cons.mp hx with hx | hx
          · subst hx; exact hp
          · exact hpre x hx

/-- C3: candidates are probed in strict priority order — the configured
override (only when the setting read succeeded, the value is truthy and not
the bare `'pixi'`), then the bare command name, then the home-directory
install location (only when it exists on disk) — and the returned handle is
bound to the first candidate whose environment-prefix probe answers
non-absent (an empty list counts); when the override functions, it is the
only candidate ever probed. -/
theorem locate_priority_order (w : LocateWorld) (cwd : String) :
    locateCandidates w = overrideCandidates w ++ ["pixi"] ++ defaultInstallCandidates w
    ∧ (∀ s, w.pixiToolPathSetting = some (some s) → s ≠ "" → s ≠ "pixi" →
        overrideCandidates w = [s])
    ∧ (w.pixiToolPathSetting = none → overrideCandidates w = [])
    ∧ (∀ home, w.userHomeDir = some home → home ≠ "" →
        defaultInstallCandidates w
          = (if w.pathExistsSyncF (join2 (join2 (join2 home ".pixi") "bin") "pixi")
             then [join2 (join2 (join2 home ".pixi") "bin") "pixi"] else []))
    ∧ (∀ s l, overrideCandidates w = [s] →
        (Pixi.mk s cwd).getEnvList w.execF = .ok (some l) →
        Pixi.locateP w cwd = (.ok (some ⟨s, cwd⟩), [s]))
    ∧ (∀ h probed, Pixi.locateP w cwd = (.ok (some h), probed) →
        h.cwd = cwd
        ∧ ∃ pre suf, locateCandidates w = pre ++ h.command :: suf
            ∧ probed = pre ++ [h.command]
            ∧ (∀ c ∈ pre, (Pixi.mk c cwd).getEnvList w.execF = .ok none)
            ∧ ∃ l, (Pixi.mk h.command cwd).getEnvList w.execF = .ok (some l)) := by
  refine ⟨rfl, ?_, ?_, ?_, ?_, ?_⟩
  · intro s h1 h2 h3
    simp [overrideCandidates, h1, h2, h3]
  · intro h1
    simp [overrideCandidates, h1]
  · intro home h1 h2
    simp [defaultInstallCandidates, h1, h2]
  · intro s l hov hpr
    unfold Pixi.locateP locateCandidates
    rw [hov]
    simp only [List.cons_append, List.nil_append, probeLoop, hpr]
  · exact fun h probed => probeLoop_sound w cwd (locateCandidates w) h probed

/-- C3 witness: in a world whose configured override `/custom/pixi` is the
only functioning candidate, locating binds the handle to the override and
probes nothing else. -/
theorem locate_priority_order_witness :
    Pixi.locateP locateSampleWorld "/proj"
      = (.ok (some ⟨"/custom/pixi", "/proj"⟩), ["/custom/pixi"]) :=
  (locate_priority_order locateSampleWorld "/proj").2.2.2.2.1
    "/custom/pixi" [.str "/proj/.pixi/envs/default"] rfl rfl

/-- C5: outside test-execution mode a cached registry entry is returned
as-is with zero process invocations and no state change; a first call for a
directory stores the resolution outcome (a negative `none` outcome exactly
like a positive one) and a repeated call after it performs zero further
invocations; in test-execution mode every call re-resolves. -/
theorem getPixi_memoization (w : LocateWorld) (st : PixiRegistry) (cwd : String) :
    (∀ r, st.lookup cwd = some r → Pixi.getPixi false w st cwd = (r, st, 0))
    ∧ (∀ tm, st.lookup cwd = none →
        Pixi.getPixi tm w st cwd
          = (Pixi.locate w cwd, (cwd, Pixi.locate w cwd) :: st,
             (Pixi.locateP w cwd).2.length))
    ∧ (st.lookup cwd = none →
        Pixi.getPixi false w (Pixi.getPixi false w st cwd).2.1 cwd
          = ((Pixi.getPixi false w st cwd).1, (Pixi.getPixi false w st cwd).2.1, 0))
    ∧ Pixi.getPixi true w st cwd
        = (Pixi.locate w cwd, (cwd, Pixi.locate w cwd) :: st,
           (Pixi.locateP w cwd).2.length) := by
  refine ⟨?_, ?_, ?_, ?_⟩
  · intro r hr
    simp [Pixi.getPixi, hr]
  · intro tm hn
    cases tm <;> simp [Pixi.getPixi, hn, Pixi.locate]
  · intro hn
    simp [Pixi.getPixi, hn, List.lookup]
  · cases hl : st.lookup cwd <;> simp [Pixi.getPixi, hl, Pixi.locate]

/-- C5 witness: with no functioning candidate, the first call resolves (two
probes: the bare command and the home install location), caches the
negative outcome, and a repeated call returns it with zero invocations. -/
theorem getPixi_memoization_witness :
    Pixi.getPixi false noneSampleWorld [] "/proj"
      = (Pixi.locate noneSampleWorld "/proj",
         ("/proj", Pixi.locate noneSampleWorld "/proj") :: [],
         (Pixi.locateP noneSampleWorld "/proj").2.length)
    ∧ Pixi.getPixi false noneSampleWorld [("/proj", Except.ok none)] "/proj"
      = (Except.ok none, [("/proj", Except.ok none)], 0)
    ∧ Pixi.locate noneSampleWorld "/proj" = Except.ok none
    ∧ (Pixi.locateP noneSampleWorld "/proj").2.length = 2 :=
  ⟨(getPixi_memoization noneSampleWorld [] "/proj").2.1 false rfl,
   (getPixi_memoization noneSampleWorld [("/proj", Except.ok none)] "/proj").1
     (Except.ok none) rfl,
   rfl, rfl⟩

/-- C4: with prefix list `ps` reported by the tool, one enumeration call
yields, in the reported order, exactly one record per prefix that still
exists on disk and whose interpreter resolves; the yielded environment
paths form a sublist of `ps`, so existence filtering preserves the relative
order. -/
theorem doIterEnvs_order (w : EnumWorld) (ps : List String) (h : w.envList = some ps) :
    PixiLocator.doIterEnvs w
        = ps.flatMap (fun d => if w.pathExistsF d then envRecords w d else [])
    ∧ ((PixiLocator.doIterEnvs w).map BasicEnvInfo.envPath).Sublist ps := by
  have hdirs : getVirtualEnvDirs w = ps.filter w.pathExistsF := by
    simp [getVirtualEnvDirs, h]
  have hmain : PixiLocator.doIterEnvs w
      = ps.flatMap (fun d => if w.pathExistsF d then envRecords w d else []) := by
    unfold PixiLocator.doIterEnvs
    rw [hdirs, flatMap_filter_eq]
  refine ⟨hmain, ?_⟩
  rw [hmain, List.map_flatMap]
  refine flatMap_sublist_self _ ps fun d _ => ?_
  cases he : w.pathExistsF d
  · simp [he]
  · simp only [he, if_pos]
    unfold envRecords
    cases hr : w.getCondaInterpreterPath d with
    | error e => simp
    | ok o => cases o <;> simp

/-- C4 witness: three reported prefixes of which the middle one no longer
exists yield exactly the first and third records, in the reported order. -/
theorem doIterEnvs_order_witness :
    PixiLocator.doIterEnvs enumSampleWorld
      = [⟨"/proj/.pixi/envs/default/bin/python", "pixi", "/proj/.pixi/envs/default"⟩,
         ⟨"/proj/.pixi/envs/py311/bin/python", "pixi", "/proj/.pixi/envs/py311"⟩]
    ∧ ((PixiLocator.doIterEnvs enumSampleWorld).map BasicEnvInfo.envPath).Sublist
        ["/proj/.pixi/envs/default", "/proj/.pixi/envs/gone", "/proj/.pixi/envs/py311"] :=
  ⟨((doIterEnvs_order enumSampleWorld _ rfl).1).trans rfl,
   (doIterEnvs_order enumSampleWorld _ rfl).2⟩

/-- C8: when a surviving prefix's interpreter resolution fails, only that
environment is skipped: the enumeration still yields the records of the
environments before and after it, in order. -/
theorem doIterEnvs_skips_failing (w : EnumWorld) (xs ys : List String) (d : String)
    (hsurv : getVirtualEnvDirs w = xs ++ d :: ys)
    (hfail : w.getCondaInterpreterPath d = .error ()) :
    PixiLocator.doIterEnvs w
        = xs.flatMap (envRecords w) ++ ys.flatMap (envRecords w)
    ∧ envRecords w d = [] := by
  have hd : envRecords w d = [] := by simp [envRecords, hfail]
  refine ⟨?_, hd⟩
  unfold PixiLocator.doIterEnvs
  rw [hsurv]
  simp [List.flatMap_append, List.flatMap_cons, hd]

/-- C8 witness: of three surviving prefixes, the middle one's interpreter
resolution rejects; the first and third are still yielded, in order. -/
theorem doIterEnvs_skips_failing_witness :
    PixiLocator.doIterEnvs enumFailSampleWorld
      = [⟨"/proj/.pixi/envs/default/bin/python", "pixi", "/proj/.pixi/envs/default"⟩,
         ⟨"/proj/.pixi/envs/py311/bin/python", "pixi", "/proj/.pixi/envs/py311"⟩]
    ∧ envRecords enumFailSampleWorld "/proj/.pixi/envs/bad" = [] :=
  ⟨((doIterEnvs_skips_failing enumFailSampleWorld
      ["/proj/.pixi/envs/default"] ["/proj/.pixi/envs/py311"] "/proj/.pixi/envs/bad"
      rfl rfl).1).trans rfl,
   (doIterEnvs_skips_failing enumFailSampleWorld
      ["/proj/.pixi/envs/default"] ["/proj/.pixi/envs/py311"] "/proj/.pixi/envs/bad"
      rfl rfl).2⟩

end PixiCore
